import Mathlib

/-!
Verification of the authentication / invitation lifecycle of the
clickup-alternative backend (Express + Mongoose).

Shallow embedding conventions:
* JavaScript `Date` values are milliseconds, modelled as `Nat`.
* Mongo collections are `List`s of records; `findOne` is `List.find?`
  (first match in collection order), `updateOne` / instance `save` update
  the first matching document, `deleteMany` is `List.filter`, and
  `deleteOne` / `findByIdAndDelete` delete the first matching document.
* Randomly generated values (OTP codes, invitation tokens, fresh ids) and
  configuration values read from the environment (expiry durations) are
  explicit parameters.
* bcrypt is modelled symbolically: hashing wraps a credential in a
  constructor, and `bcrypt.compare` succeeds exactly when the stored value
  is the hash of the entered plaintext (hashing is salted, hence never a
  fixed point, and never idempotent).
-/

namespace ClickupAlt

/-! ### Generic list operations standing for Mongo single-document updates -/

/-- `updateOne` / saving a fetched document: apply `f` to the first element
satisfying `p`, leave the rest unchanged. -/
def updateFirst (p : α → Bool) (f : α → α) : List α → List α
  | [] => []
  | x :: xs => if p x then f x :: xs else x :: updateFirst p f xs

/-- `deleteOne` / `findByIdAndDelete`: remove the first element satisfying `p`. -/
def deleteFirst (p : α → Bool) : List α → List α
  | [] => []
  | x :: xs => if p x then xs else x :: deleteFirst p xs

theorem updateFirst_of_not_mem (p : α → Bool) (f : α → α) (l : List α)
    (h : ∀ x ∈ l, p x = false) : updateFirst p f l = l := by
  induction l with
  | nil => rfl
  | cons x xs ih =>
    have hx := h x (List.mem_cons_self x xs)
    simp [updateFirst, hx]
    exact ih fun y hy => h y (List.mem_cons_of_mem x hy)

theorem updateFirst_append_of_not_mem (p : α → Bool) (f : α → α)
    (l1 : List α) (r : α) (l2 : List α)
    (h1 : ∀ x ∈ l1, p x = false) (h2 : p r = true) :
    updateFirst p f (l1 ++ r :: l2) = l1 ++ f r :: l2 := by
  induction l1 with
  | nil => simp [updateFirst, h2]
  | cons x xs ih =>
    have hx := h1 x (List.mem_cons_self x xs)
    simp [updateFirst, hx]
    exact ih fun y hy => h1 y (List.mem_cons_of_mem x hy)

theorem deleteFirst_append_of_not_mem (p : α → Bool)
    (l1 : List α) (r : α) (l2 : List α)
    (h1 : ∀ x ∈ l1, p x = false) (h2 : p r = true) :
    deleteFirst p (l1 ++ r :: l2) = l1 ++ l2 := by
  induction l1 with
  | nil => simp [deleteFirst, h2]
  | cons x xs ih =>
    have hx := h1 x (List.mem_cons_self x xs)
    simp [deleteFirst, hx]
    exact ih fun y hy => h1 y (List.mem_cons_of_mem x hy)

/-- When at most one element of `l` satisfies `p`, `find? p` returns any
member known to satisfy `p`. -/
theorem find?_eq_of_countP_le_one (p : α → Bool) {l : List α} {r : α}
    (h1 : l.countP p ≤ 1) (h2 : r ∈ l) (h3 : p r = true) :
    l.find? p = some r := by
  induction l with
  | nil => cases h2
  | cons x xs ih =>
    rw [List.countP_cons] at h1
    rcases List.mem_cons.mp h2 with rfl | hmem
    · simp [List.find?, h3]
    · by_cases hx : p x = true
      · exfalso
        have hpos : 0 < xs.countP p := List.countP_pos_iff.mpr ⟨r, hmem, h3⟩
        have hle : xs.countP p + 1 ≤ 1 := by simpa [hx] using h1
        omega
      · simp at hx
        simp [List.find?, hx]
        exact ih (by simpa [hx] using h1) hmem

/-- When at most one element of `l` satisfies `p` and `r` is that element,
`find?` for any sub-predicate `q` of `p` returns `r` iff `r` satisfies `q`. -/
theorem find?_sub_of_countP_le_one (p q : α → Bool)
    (hpq : ∀ x, q x = true → p x = true) {l : List α} {r : α}
    (h1 : l.countP p ≤ 1) (h2 : r ∈ l) (h3 : p r = true) :
    l.find? q = if q r then some r else none := by
  induction l with
  | nil => cases h2
  | cons x xs ih =>
    rw [List.countP_cons] at h1
    rcases List.mem_cons.mp h2 with rfl | hmem
    · by_cases hq : q r = true
      · simp [List.find?, hq]
      · simp at hq
        have hle : xs.countP p + 1 ≤ 1 := by simpa [h3] using h1
        have hnone : xs.find? q = none := by
          rw [List.find?_eq_none]
          intro y hy hqy
          have hpos : 0 < xs.countP p :=
            List.countP_pos_iff.mpr ⟨y, hy, hpq y hqy⟩
          omega
        simp [List.find?, hq, hnone]
    · by_cases hx : p x = true
      · exfalso
        have hpos : 0 < xs.countP p := List.countP_pos_iff.mpr ⟨r, hmem, h3⟩
        have hle : xs.countP p + 1 ≤ 1 := by simpa [hx] using h1
        omega
      · have hqx : q x = false := by
          cases hqv : q x with
          | false => rfl
          | true => exact absurd (hpq x hqv) hx
        simp at hx
        simp [List.find?, hqx]
        exact ih (by simpa [hx] using h1) hmem

/-- Decomposition of a successful `find?`: the list splits at the found
element, nothing before it matches. -/
theorem find?_decomp (p : α → Bool) {l : List α} {r : α}
    (h : l.find? p = some r) :
    ∃ l1 l2, l = l1 ++ r :: l2 ∧ (∀ x ∈ l1, p x = false) ∧ p r = true := by
  induction l with
  | nil => simp [List.find?] at h
  | cons x xs ih =>
    by_cases hx : p x = true
    · refine ⟨[], xs, ?_, ?_, ?_⟩
      · simp [List.find?, hx] at h
        simp [h]
      · intro y hy; cases hy
      · simp [List.find?, hx] at h
        rw [← h]; exact hx
    · simp at hx
      simp [List.find?, hx] at h
      obtain ⟨l1, l2, hl, hnot, hr⟩ := ih h
      exact ⟨x :: l1, l2, by simp [hl], by
        intro y hy
        rcases List.mem_cons.mp hy with rfl | hy'
        · exact hx
        · exact hnot y hy', hr⟩

/-! ### One-time codes — backend/models/OTP.js -/

/-- An `OTP` document (otpSchema). -/
structure OTPRec where
  email : String
  otp : String
  purpose : String
  attempts : Nat := 0
  isUsed : Bool := false
  expiresAt : Nat
deriving DecidableEq

/-- The exact (email, otp, purpose) triple filter used by the second
`findOne` of `verifyOTP` and by `incrementAttempts`. -/
def otpTriple (e c p : String) (r : OTPRec) : Bool :=
  r.email == e && r.otp == c && r.purpose == p

/-- The filter of the first `findOne` of `verifyOTP`: exact triple, unused,
unexpired. -/
def otpActiveTriple (e c p : String) (now : Nat) (r : OTPRec) : Bool :=
  otpTriple e c p r && !r.isUsed && decide (now < r.expiresAt)

/-- Active code for an (email, purpose) pair, regardless of code value. -/
def otpActivePair (e p : String) (now : Nat) (r : OTPRec) : Bool :=
  r.email == e && r.purpose == p && !r.isUsed && decide (now < r.expiresAt)

/-- `OTP.createOTP(email, purpose)`: deletes every existing code for
(email, purpose), then saves one new unused code expiring
`expiryMinutes` minutes from now. The generated random code and the
configured expiry are parameters. Returns the plaintext code. -/
def createOTP (st : List OTPRec) (email purpose code : String)
    (now expiryMinutes : Nat) : String × List OTPRec :=
  let st1 := st.filter fun r => !(r.email == email && r.purpose == purpose)
  let doc : OTPRec := { email := email, otp := code, purpose := purpose,
                        attempts := 0, isUsed := false,
                        expiresAt := now + expiryMinutes * 60 * 1000 }
  (code, st1 ++ [doc])

/-- The four failure modes of `OTP.verifyOTP`, by error message:
`invalidOTP` = "Invalid OTP", `alreadyUsed` = "OTP has already been used",
`expired` = "OTP has expired",
`tooManyAttempts` = "Too many failed attempts. Please request a new OTP". -/
inductive OTPError
  | invalidOTP
  | alreadyUsed
  | expired
  | tooManyAttempts
deriving DecidableEq

/-- `OTP.verifyOTP(email, otp, purpose)` (models/OTP.js 74-106): look for an
unused, unexpired exact-triple match; if absent, distinguish used / expired /
no record; if present, reject when attempts ≥ 5, otherwise mark the document
used and save it. -/
def verifyOTP (st : List OTPRec) (email code purpose : String) (now : Nat) :
    Except OTPError (List OTPRec) :=
  match st.find? (otpActiveTriple email code purpose now) with
  | none =>
    match st.find? (otpTriple email code purpose) with
    | some r => if r.isUsed then .error .alreadyUsed else .error .expired
    | none => .error .invalidOTP
  | some r =>
    if 5 ≤ r.attempts then .error .tooManyAttempts
    else .ok (updateFirst (otpActiveTriple email code purpose now)
                (fun d => { d with isUsed := true }) st)

/-- `OTP.incrementAttempts(email, otp, purpose)` (models/OTP.js 109-114):
`updateOne` with `$inc: {attempts: 1}` on the exact triple. -/
def incrementAttempts (st : List OTPRec) (email code purpose : String) :
    List OTPRec :=
  updateFirst (otpTriple email code purpose)
    (fun r => { r with attempts := r.attempts + 1 }) st

theorem otpActiveTriple_imp_triple (e c p : String) (now : Nat) (r : OTPRec)
    (h : otpActiveTriple e c p now r = true) : otpTriple e c p r = true := by
  simp [otpActiveTriple] at h
  simp [h.1]

theorem otpTriple_markUsed (e c p : String) (r : OTPRec) :
    otpTriple e c p { r with isUsed := true } = otpTriple e c p r := rfl

/-- After a `createOTP`, exactly one active code exists for the pair
(provided the configured expiry is positive). -/
theorem createOTP_active_one (st : List OTPRec) (e p c : String)
    (now m : Nat) (hm : 0 < m) :
    ((createOTP st e p c now m).2).countP (otpActivePair e p now) = 1 := by
  have hfilter :
      (st.filter fun r => !(r.email == e && r.purpose == p)).countP
        (otpActivePair e p now) = 0 := by
    rw [List.countP_eq_zero]
    intro r hr
    have hmem := List.mem_filter.mp hr
    intro hact
    simp [otpActivePair] at hact
    simp [hact.1.1.1, hact.1.1.2] at hmem
  simp only [createOTP, List.countP_append, hfilter]
  simp [otpActivePair, List.countP_cons]
  omega

/-! ### C5 — issuing twice leaves exactly one active code -/

/-- C5: for all emails e and purposes p, issuing two OTPs for (e, p) in
sequence via `createOTP` leaves exactly one active (unused, unexpired) code
for (e, p): issuance deletes all prior codes for the pair and inserts one
new code, preserving the at-most-one-active-code invariant. -/
theorem C5_two_issues_one_active (st : List OTPRec) (e p c1 c2 : String)
    (t1 t2 m1 m2 : Nat) (hm : 0 < m2) :
    ((createOTP (createOTP st e p c1 t1 m1).2 e p c2 t2 m2).2).countP
      (otpActivePair e p t2) = 1 :=
  createOTP_active_one _ e p c2 t2 m2 hm

theorem C5_witness :
    ((createOTP (createOTP [] "a@x.com" "email_verification" "111111" 0 10).2
        "a@x.com" "email_verification" "222222" 1000 10).2).countP
      (otpActivePair "a@x.com" "email_verification" 1000) = 1 :=
  C5_two_issues_one_active [] "a@x.com" "email_verification" "111111" "222222"
    0 1000 10 10 (by decide)

/-! ### C4 — verifyOTP error taxonomy and at-most-once success -/

/-- C4: for every stored OTP state (with at most one record per exact
triple, the invariant `createOTP` maintains) and every call
`verifyOTP(email, code, purpose)`: no exact-triple match fails with
"Invalid OTP"; a used match fails with "already used"; an unused expired
match fails with "expired"; an active match with attempts ≥ 5 fails with
"too many attempts"; otherwise the record is marked used and the call
succeeds, and any second call with the same arguments fails with
"already used" (success at most once per issued code). -/
theorem C4_verify_taxonomy (st : List OTPRec) (e c p : String) (now : Nat)
    (hw : st.countP (otpTriple e c p) ≤ 1) :
    ((∀ r ∈ st, otpTriple e c p r = false) →
        verifyOTP st e c p now = .error .invalidOTP)
    ∧ (∀ r ∈ st, otpTriple e c p r = true → r.isUsed = true →
        verifyOTP st e c p now = .error .alreadyUsed)
    ∧ (∀ r ∈ st, otpTriple e c p r = true → r.isUsed = false →
        r.expiresAt ≤ now → verifyOTP st e c p now = .error .expired)
    ∧ (∀ r ∈ st, otpTriple e c p r = true → r.isUsed = false →
        now < r.expiresAt → 5 ≤ r.attempts →
        verifyOTP st e c p now = .error .tooManyAttempts)
    ∧ (∀ r ∈ st, otpTriple e c p r = true → r.isUsed = false →
        now < r.expiresAt → r.attempts < 5 →
        ∃ st', verifyOTP st e c p now = .ok st' ∧
          ∀ now', verifyOTP st' e c p now' = .error .alreadyUsed) := by
  refine ⟨?_, ?_, ?_, ?_, ?_⟩
  · intro hnone
    have h1 : st.find? (otpActiveTriple e c p now) = none := by
      rw [List.find?_eq_none]
      intro x hx hact
      have := otpActiveTriple_imp_triple e c p now x hact
      rw [hnone x hx] at this
      cases this
    have h2 : st.find? (otpTriple e c p) = none := by
      rw [List.find?_eq_none]
      intro x hx hact
      rw [hnone x hx] at hact
      cases hact
    simp [verifyOTP, h1, h2]
  · intro r hmem htr hused
    have h1 : st.find? (otpActiveTriple e c p now) = none := by
      rw [find?_sub_of_countP_le_one (otpTriple e c p)
        (otpActiveTriple e c p now) (otpActiveTriple_imp_triple e c p now)
        hw hmem htr]
      simp [otpActiveTriple, hused]
    have h2 : st.find? (otpTriple e c p) = some r :=
      find?_eq_of_countP_le_one _ hw hmem htr
    simp [verifyOTP, h1, h2, hused]
  · intro r hmem htr hused hexp
    have h1 : st.find? (otpActiveTriple e c p now) = none := by
      rw [find?_sub_of_countP_le_one (otpTriple e c p)
        (otpActiveTriple e c p now) (otpActiveTriple_imp_triple e c p now)
        hw hmem htr]
      simp [otpActiveTriple, hused]
      omega
    have h2 : st.find? (otpTriple e c p) = some r :=
      find?_eq_of_countP_le_one _ hw hmem htr
    simp [verifyOTP, h1, h2, hused]
  · intro r hmem htr hused hnow hatt
    have hact : otpActiveTriple e c p now r = true := by
      simp [otpActiveTriple, htr, hused, hnow]
    have h1 : st.find? (otpActiveTriple e c p now) = some r := by
      rw [find?_sub_of_countP_le_one (otpTriple e c p)
        (otpActiveTriple e c p now) (otpActiveTriple_imp_triple e c p now)
        hw hmem htr]
      simp [hact]
    simp [verifyOTP, h1, hatt]
  · intro r hmem htr hused hnow hatt
    have hact : otpActiveTriple e c p now r = true := by
      simp [otpActiveTriple, htr, hused, hnow]
    have h1 : st.find? (otpActiveTriple e c p now) = some r := by
      rw [find?_sub_of_countP_le_one (otpTriple e c p)
        (otpActiveTriple e c p now) (otpActiveTriple_imp_triple e c p now)
        hw hmem htr]
      simp [hact]
    obtain ⟨l1, l2, hl, hnot, _⟩ := find?_decomp _ h1
    have hupd : updateFirst (otpActiveTriple e c p now)
        (fun d => { d with isUsed := true }) st
        = l1 ++ { r with isUsed := true } :: l2 := by
      rw [hl]
      exact updateFirst_append_of_not_mem _ _ l1 r l2 hnot hact
    have hnot5 : ¬ 5 ≤ r.attempts := by omega
    refine ⟨l1 ++ { r with isUsed := true } :: l2,
      by simp [verifyOTP, h1, hnot5, hupd], ?_⟩
    intro now'
    set r' : OTPRec := { r with isUsed := true } with hr'
    have htr' : otpTriple e c p r' = true := by
      rw [hr', otpTriple_markUsed]; exact htr
    have hcount' : (l1 ++ r' :: l2).countP (otpTriple e c p) ≤ 1 := by
      have heq : st.countP (otpTriple e c p)
          = (l1 ++ r' :: l2).countP (otpTriple e c p) := by
        rw [hl]
        simp [List.countP_append, List.countP_cons, htr, htr']
      omega
    have hmem' : r' ∈ l1 ++ r' :: l2 := by simp
    have h1' : (l1 ++ r' :: l2).find? (otpActiveTriple e c p now') = none := by
      rw [find?_sub_of_countP_le_one (otpTriple e c p)
        (otpActiveTriple e c p now') (otpActiveTriple_imp_triple e c p now')
        hcount' hmem' htr']
      simp [otpActiveTriple, hr']
    have h2' : (l1 ++ r' :: l2).find? (otpTriple e c p) = some r' :=
      find?_eq_of_countP_le_one _ hcount' hmem' htr'
    simp [verifyOTP, h1', h2', hr']

theorem C4_witness :
    verifyOTP
      [{ email := "a@x.com", otp := "123456", purpose := "email_verification",
         attempts := 5, isUsed := false, expiresAt := 2000 }]
      "a@x.com" "123456" "email_verification" 1000
      = .error .tooManyAttempts := by
  have h := C4_verify_taxonomy
    [{ email := "a@x.com", otp := "123456", purpose := "email_verification",
       attempts := 5, isUsed := false, expiresAt := 2000 }]
    "a@x.com" "123456" "email_verification" 1000 (by decide)
  exact h.2.2.2.1
    { email := "a@x.com", otp := "123456", purpose := "email_verification",
      attempts := 5, isUsed := false, expiresAt := 2000 }
    (by decide) (by decide) (by decide) (by decide) (by decide)

/-! ### Team invitations — backend/models/TeamInvitation.js -/

/-- teamInvitationSchema status enum. -/
inductive InvStatus
  | pending
  | accepted
  | declined
  | expired
deriving DecidableEq

/-- A `TeamInvitation` document (teamInvitationSchema). -/
structure InvRec where
  email : String
  workspaceId : Nat
  invitedBy : String
  role : String := "member"
  token : String
  status : InvStatus := .pending
  acceptedBy : Option String := none
  acceptedAt : Option Nat := none
  expiresAt : Nat
deriving DecidableEq

/-- The duplicate check of `createInvitation`: pending, unexpired invitation
for the same (email, workspaceId). -/
def pendingForPair (e : String) (wid : Nat) (now : Nat) (r : InvRec) : Bool :=
  r.email == e && r.workspaceId == wid
    && decide (r.status = InvStatus.pending) && decide (now < r.expiresAt)

inductive CreateInvError
  | conflict
deriving DecidableEq

/-- `TeamInvitation.createInvitation` (models/TeamInvitation.js 69-113):
conflict when a pending, unexpired invitation for (email, workspaceId)
exists; otherwise persist a new pending invitation with the generated token
and expiry `now + expiryHours` hours. Token and expiry hours are
parameters (crypto randomness and environment configuration). -/
def createInvitation (invs : List InvRec) (email : String) (workspaceId : Nat)
    (invitedBy role token : String) (now expiryHours : Nat) :
    Except CreateInvError (InvRec × List InvRec) :=
  match invs.find? (pendingForPair email workspaceId now) with
  | some _ => .error .conflict
  | none =>
    let inv : InvRec := { email := email, workspaceId := workspaceId,
                          invitedBy := invitedBy, role := role, token := token,
                          status := .pending, acceptedBy := none,
                          acceptedAt := none,
                          expiresAt := now + expiryHours * 60 * 60 * 1000 }
    .ok (inv, invs ++ [inv])

/-- The filter of `findByToken`: exact token, pending, unexpired. -/
def validByToken (token : String) (now : Nat) (r : InvRec) : Bool :=
  r.token == token && decide (r.status = InvStatus.pending)
    && decide (now < r.expiresAt)

/-- The single error of `findByToken`: "Invalid or expired invitation". -/
inductive FindTokenError
  | invalidOrExpired
deriving DecidableEq

/-- `TeamInvitation.findByToken` (models/TeamInvitation.js 116-128). -/
def findByToken (invs : List InvRec) (token : String) (now : Nat) :
    Except FindTokenError InvRec :=
  match invs.find? (validByToken token now) with
  | some r => .ok r
  | none => .error .invalidOrExpired

/-- Errors of the `accept` instance method: `noLongerPending` =
"Invitation is no longer pending", `expired` = "Invitation has expired". -/
inductive AcceptError
  | noLongerPending
  | expired
deriving DecidableEq

/-- `teamInvitationSchema.methods.accept` (models/TeamInvitation.js 131-148)
on a single document. The second component is the document state after the
call — the expired branch mutates the document and saves it before
throwing. -/
def acceptDoc (inv : InvRec) (userId : String) (now : Nat) :
    Except AcceptError InvRec × InvRec :=
  if inv.status ≠ InvStatus.pending then (.error .noLongerPending, inv)
  else if inv.expiresAt < now then
    (.error .expired, { inv with status := .expired })
  else
    let inv' : InvRec :=
      { inv with status := .accepted, acceptedBy := some userId,
                 acceptedAt := some now }
    (.ok inv', inv')

/-- Persisting an instance `save`: Mongoose writes back by `_id`; the token
is schema-unique, so the document is identified by its token here. -/
def saveInv (invs : List InvRec) (tok : String) (inv' : InvRec) : List InvRec :=
  updateFirst (fun r => r.token == tok) (fun _ => inv') invs

/-! ### C6 — createInvitation conflicts exactly on a pending, unexpired duplicate -/

/-- C6: `createInvitation` fails with Conflict iff a pending, unexpired
invitation for (email, workspaceId) already exists; otherwise (in
particular once the previous invitation is accepted or declined) it
succeeds and persists a new pending invitation with the fresh token and
expiry `now + expiryHours` hours. -/
theorem C6_create_conflict_iff (invs : List InvRec) (e : String) (wid : Nat)
    (inviter role token : String) (now eh : Nat) :
    (createInvitation invs e wid inviter role token now eh = .error .conflict
      ↔ ∃ r ∈ invs, r.email = e ∧ r.workspaceId = wid
          ∧ r.status = InvStatus.pending ∧ now < r.expiresAt)
    ∧ ((¬ ∃ r ∈ invs, r.email = e ∧ r.workspaceId = wid
          ∧ r.status = InvStatus.pending ∧ now < r.expiresAt) →
        createInvitation invs e wid inviter role token now eh =
          .ok ({ email := e, workspaceId := wid, invitedBy := inviter,
                 role := role, token := token, status := .pending,
                 acceptedBy := none, acceptedAt := none,
                 expiresAt := now + eh * 60 * 60 * 1000 },
               invs ++
                 [{ email := e, workspaceId := wid, invitedBy := inviter,
                    role := role, token := token, status := .pending,
                    acceptedBy := none, acceptedAt := none,
                    expiresAt := now + eh * 60 * 60 * 1000 }])) := by
  have hbridge : (∃ r ∈ invs, r.email = e ∧ r.workspaceId = wid
      ∧ r.status = InvStatus.pending ∧ now < r.expiresAt)
      ↔ (invs.find? (pendingForPair e wid now)).isSome := by
    rw [List.find?_isSome]
    constructor
    · rintro ⟨r, hm, h1, h2, h3, h4⟩
      exact ⟨r, hm, by simp [pendingForPair, h1, h2, h3, h4]⟩
    · rintro ⟨r, hm, hp⟩
      simp [pendingForPair] at hp
      obtain ⟨⟨⟨h1, h2⟩, h3⟩, h4⟩ := hp
      exact ⟨r, hm, h1, h2, h3, h4⟩
  cases hf : invs.find? (pendingForPair e wid now) with
  | some r =>
    have hex : ∃ r ∈ invs, r.email = e ∧ r.workspaceId = wid
        ∧ r.status = InvStatus.pending ∧ now < r.expiresAt :=
      hbridge.mpr (by rw [hf]; rfl)
    exact ⟨iff_of_true (by simp [createInvitation, hf]) hex,
      fun hne => absurd hex hne⟩
  | none =>
    have hnex : ¬ ∃ r ∈ invs, r.email = e ∧ r.workspaceId = wid
        ∧ r.status = InvStatus.pending ∧ now < r.expiresAt := by
      rw [hbridge, hf]; simp
    exact ⟨iff_of_false (by simp [createInvitation, hf]) hnex,
      fun _ => by simp [createInvitation, hf]⟩

theorem C6_witness :
    createInvitation
      [{ email := "a@x.com", workspaceId := 1, invitedBy := "bob",
         role := "member", token := "tok1", status := .accepted,
         acceptedBy := some "carol", acceptedAt := some 500,
         expiresAt := 259200000 }]
      "a@x.com" 1 "bob" "member" "tok2" 1000 72 =
      .ok ({ email := "a@x.com", workspaceId := 1, invitedBy := "bob",
             role := "member", token := "tok2", status := .pending,
             acceptedBy := none, acceptedAt := none,
             expiresAt := 1000 + 72 * 60 * 60 * 1000 },
           [{ email := "a@x.com", workspaceId := 1, invitedBy := "bob",
              role := "member", token := "tok1", status := .accepted,
              acceptedBy := some "carol", acceptedAt := some 500,
              expiresAt := 259200000 },
            { email := "a@x.com", workspaceId := 1, invitedBy := "bob",
              role := "member", token := "tok2", status := .pending,
              acceptedBy := none, acceptedAt := none,
              expiresAt := 1000 + 72 * 60 * 60 * 1000 }]) := by
  have h := C6_create_conflict_iff
    [{ email := "a@x.com", workspaceId := 1, invitedBy := "bob",
       role := "member", token := "tok1", status := .accepted,
       acceptedBy := some "carol", acceptedAt := some 500,
       expiresAt := 259200000 }]
    "a@x.com" 1 "bob" "member" "tok2" 1000 72
  exact h.2 (by decide)

/-! ### C7 — accepting an expired pending invitation -/

/-- C7: `accept` on a pending invitation whose expiry is in the past
transitions its status to expired, persists that transition, and fails
with Expired; every subsequent `findByToken` on that token fails with the
single InvalidOrExpired error (tokens are schema-unique, hence the
at-most-one-record-per-token hypothesis). -/
theorem C7_accept_expired (invs : List InvRec) (inv : InvRec) (userId : String)
    (now : Nat) (hmem : inv ∈ invs)
    (huniq : invs.countP (fun r => r.token == inv.token) ≤ 1)
    (hp : inv.status = InvStatus.pending) (hexp : inv.expiresAt < now) :
    acceptDoc inv userId now = (.error .expired, { inv with status := .expired })
    ∧ ∀ t, findByToken (saveInv invs inv.token { inv with status := .expired })
        inv.token t = .error .invalidOrExpired := by
  constructor
  · simp [acceptDoc, hp, hexp]
  · intro t
    have htok : (fun r : InvRec => r.token == inv.token) inv = true := by simp
    have hfind : invs.find? (fun r => r.token == inv.token) = some inv :=
      find?_eq_of_countP_le_one _ huniq hmem htok
    obtain ⟨l1, l2, hl, hnot, _⟩ := find?_decomp _ hfind
    have hupd : saveInv invs inv.token { inv with status := .expired }
        = l1 ++ { inv with status := .expired } :: l2 := by
      rw [saveInv, hl]
      exact updateFirst_append_of_not_mem _ _ l1 inv l2 hnot htok
    have hc2 : l2.countP (fun r : InvRec => r.token == inv.token) = 0 := by
      have h := huniq
      rw [hl] at h
      simp [List.countP_append, List.countP_cons] at h
      omega
    have hnone : (l1 ++ { inv with status := .expired } :: l2).find?
        (validByToken inv.token t) = none := by
      rw [List.find?_eq_none]
      intro x hx hv
      simp [validByToken] at hv
      rcases List.mem_append.mp hx with hx1 | hx2
      · have := hnot x hx1
        simp [hv.1] at this
      · rcases List.mem_cons.mp hx2 with rfl | hx3
        · simp at hv
        · have : 0 < l2.countP (fun r : InvRec => r.token == inv.token) :=
            List.countP_pos_iff.mpr ⟨x, hx3, by simp [hv.1]⟩
          omega
    rw [hupd]
    simp [findByToken, hnone]

theorem C7_witness :
    acceptDoc
      { email := "a@x.com", workspaceId := 1, invitedBy := "bob",
        role := "member", token := "tok1", status := .pending,
        acceptedBy := none, acceptedAt := none, expiresAt := 500 }
      "carol" 1000 =
      (.error .expired,
       { email := "a@x.com", workspaceId := 1, invitedBy := "bob",
         role := "member", token := "tok1", status := .expired,
         acceptedBy := none, acceptedAt := none, expiresAt := 500 })
    ∧ findByToken
        (saveInv
          [{ email := "a@x.com", workspaceId := 1, invitedBy := "bob",
             role := "member", token := "tok1", status := .pending,
             acceptedBy := none, acceptedAt := none, expiresAt := 500 }]
          "tok1"
          { email := "a@x.com", workspaceId := 1, invitedBy := "bob",
            role := "member", token := "tok1", status := .expired,
            acceptedBy := none, acceptedAt := none, expiresAt := 500 })
        "tok1" 2000 = .error .invalidOrExpired := by
  have h := C7_accept_expired
    [{ email := "a@x.com", workspaceId := 1, invitedBy := "bob",
       role := "member", token := "tok1", status := .pending,
       acceptedBy := none, acceptedAt := none, expiresAt := 500 }]
    { email := "a@x.com", workspaceId := 1, invitedBy := "bob",
      role := "member", token := "tok1", status := .pending,
      acceptedBy := none, acceptedAt := none, expiresAt := 500 }
    "carol" 1000 (by decide) (by decide) (by decide) (by decide)
  exact ⟨h.1, h.2 2000⟩

/-! ### Credentials and users — backend/models/User.js, src/unnamed/part_003
(TemporaryUser model)

bcrypt is salted: hashing the same input twice gives different strings, a
hash is never equal to its input, and `bcrypt.compare(p, h)` holds exactly
when `h` was produced by hashing `p`. The symbolic model below captures
those three facts: `hashed c` is the (opaque) result of one bcrypt round
over `c`, and compare succeeds only against a single round over the entered
plaintext. -/

inductive Credential
  | plain (s : String)
  | hashed (c : Credential)
deriving DecidableEq

/-- `bcrypt.hash(value, salt)`. -/
def bcryptHash (c : Credential) : Credential := .hashed c

/-- `bcrypt.compare(entered, stored)`. -/
def bcryptCompare (entered : String) (stored : Credential) : Bool :=
  stored == bcryptHash (.plain entered)

/-- A `User` document (userSchema) together with the Mongoose per-document
flag for the `password` path: `passwordModified` is true when the password
was set on this in-memory document and not yet saved. A newly constructed
document has every set path — the password included — marked modified;
`markModified` on other paths does not clear it. -/
structure UserRec where
  id : String
  name : String
  email : String
  password : Credential
  status : String := "pending"
  emailVerified : Bool := false
  emailVerifiedAt : Option Nat := none
  workspaces : List Nat := []
  passwordModified : Bool := true
deriving DecidableEq

/-- `userSchema.pre('save')` (models/User.js 56-63) followed by the save:
hash the password iff its path is modified — `save({validateBeforeSave:
false})` skips validators, not this middleware — and clear the modified
flags once saved. -/
def userSave (u : UserRec) : UserRec :=
  if u.passwordModified then
    { u with password := bcryptHash u.password, passwordModified := false }
  else
    { u with passwordModified := false }

/-- `userSchema.methods.matchPassword`. -/
def matchPassword (entered : String) (u : UserRec) : Bool :=
  bcryptCompare entered u.password

/-- A `TemporaryUser` document (src/unnamed/part_003, temporaryUserSchema). -/
structure TempUserRec where
  name : String
  email : String
  password : Credential
  expiresAt : Nat
  passwordModified : Bool := true
deriving DecidableEq

/-- `temporaryUserSchema.pre('save')` (part_003 50-56) followed by the save:
its `isModified` guard calls `next()` without returning, so the hash runs
unconditionally. -/
def tempUserSave (t : TempUserRec) : TempUserRec :=
  { t with password := bcryptHash t.password, passwordModified := false }

/-- `TemporaryUser.createTemporaryUser` (part_003 64-72): delete any
existing temporary user with the email, save a new one (hashing the
plaintext password via the pre-save hook). -/
def createTemporaryUser (temps : List TempUserRec) (name email password : String)
    (now : Nat) : TempUserRec × List TempUserRec :=
  let temps1 := temps.filter fun t => !(t.email == email)
  let t := tempUserSave { name := name, email := email,
                          password := .plain password,
                          expiresAt := now + 86400 * 1000,
                          passwordModified := true }
  (t, temps1 ++ [t])

inductive PromoteError
  | tempNotFound
deriving DecidableEq

/-- `TemporaryUser.promoteToUser(email)` (src/unnamed/part_003 75-115):
find the temporary user, build a `new User(...)` from its fields — copying
the stored (already hashed) password, setting status active and
emailVerified with a timestamp — call `markModified` on the non-password
paths, save with `validateBeforeSave: false`, and delete the temporary
user. On a freshly constructed document every set path is modified, so the
password path is modified regardless of the `markModified` calls, and the
pre-save hook still runs. -/
def promoteToUser (temps : List TempUserRec) (users : List UserRec)
    (email newId : String) (now : Nat) :
    Except PromoteError (UserRec × List TempUserRec × List UserRec) :=
  match temps.find? (fun t => t.email == email) with
  | none => .error .tempNotFound
  | some t =>
    let u0 : UserRec := { id := newId, name := t.name, email := t.email,
                          password := t.password, status := "active",
                          emailVerified := true, emailVerifiedAt := some now,
                          workspaces := [], passwordModified := true }
    let u := userSave u0
    .ok (u, deleteFirst (fun t2 => t2.email == email) temps, users ++ [u])

/-! ### C1 — promotion re-hashes the already-hashed credential -/

/-- A pending registration for alice@example.com whose stored credential is
the bcrypt hash of "secret123", exactly as `createTemporaryUser` persists
it. -/
def c1Temp : TempUserRec :=
  (createTemporaryUser [] "Alice" "alice@example.com" "secret123" 0).1

/-- The account `promoteToUser` actually stores for `c1Temp`. -/
def c1Promoted : UserRec :=
  { id := "u1", name := "Alice", email := "alice@example.com",
    password := bcryptHash (bcryptHash (.plain "secret123")),
    status := "active", emailVerified := true, emailVerifiedAt := some 1000,
    workspaces := [], passwordModified := false }

/-- C1 (code bug): promoting the pending registration does NOT copy the
bcrypt hash verbatim. The promoted account's stored credential is a second
bcrypt round over the temporary user's hash — `new User(...)` marks every
set path modified, `markModified` on the other paths does not unmark the
password, and `validateBeforeSave: false` does not skip the pre-save hook —
so the password that matched the pending record no longer matches the
promoted account. -/
theorem C1_promote_rehashes :
    c1Temp.password = bcryptHash (.plain "secret123")
    ∧ bcryptCompare "secret123" c1Temp.password = true
    ∧ promoteToUser [c1Temp] [] "alice@example.com" "u1" 1000 =
        .ok (c1Promoted, [], [c1Promoted])
    ∧ c1Promoted.password = bcryptHash c1Temp.password
    ∧ c1Promoted.password ≠ c1Temp.password
    ∧ matchPassword "secret123" c1Promoted = false :=
  ⟨rfl, rfl, rfl, rfl, by decide, rfl⟩

/-! ### Workspaces — backend/models/Workspace.js -/

/-- A member entry of workspaceSchema.members. -/
structure MemberRec where
  user : String
  role : String
  joinedAt : Nat
deriving DecidableEq

/-- A `Workspace` document (workspaceSchema; the color/icon/spaces/settings
fields play no role in the claims below). -/
structure WorkspaceRec where
  id : Nat
  name : String
  description : String := ""
  owner : String
  members : List MemberRec := []
deriving DecidableEq

/-- workspaceSchema.members.role enum: `['admin', 'member', 'guest']`. -/
def memberRoleEnum : List String := ["admin", "member", "guest"]

/-- Mongoose validation run by `Workspace.create` / `workspace.save()`:
every member role must belong to the enum. -/
def workspaceValid (w : WorkspaceRec) : Bool :=
  w.members.all fun m => memberRoleEnum.contains m.role

/-- The default workspace display name created on verification; the JS
template is the user name followed by an apostrophe and "s Workspace"
(the apostrophe itself is elided in this embedding). -/
def defaultWorkspaceName (n : String) : String := n ++ "s Workspace"

/-! ### The auth controller — src/unnamed/part_007 -/

/-- The mutable backend state touched by the auth controller. Workspace
`_id`s are allocated from `nextWsId`. -/
structure AuthState where
  users : List UserRec
  otps : List OTPRec
  workspaces : List WorkspaceRec
  nextWsId : Nat := 0
deriving DecidableEq

/-- Errors surfaced by the verify-email route: `missingFields` = "Please
provide email and OTP" (400 before the try block), `otpError e` = the
`verifyOTP` message rethrown from the catch block, `userNotFound` = "User
not found", `alreadyVerified` = "Email is already verified". -/
inductive VerifyEmailError
  | missingFields
  | otpError (e : OTPError)
  | userNotFound
  | alreadyVerified
deriving DecidableEq

/-- `verifyEmail` (src/unnamed/part_007 130-215): verify the OTP, look the
user up, reject an already verified user, otherwise activate the user,
create the default workspace with the user as sole admin member, and link
it. Every error thrown inside the try block reaches the catch block, which
calls `incrementAttempts(email, otp, 'email_verification')` — keyed by the
PRESENTED code — before rethrowing. Returns the result and the state after
the call. -/
def verifyEmailRoute (st : AuthState) (email otp : String) (now : Nat) :
    Except VerifyEmailError Unit × AuthState :=
  if email == "" || otp == "" then (.error .missingFields, st)
  else
    match verifyOTP st.otps email otp "email_verification" now with
    | .error e =>
      (.error (.otpError e),
       { st with otps := incrementAttempts st.otps email otp "email_verification" })
    | .ok otps1 =>
      let st1 : AuthState := { st with otps := otps1 }
      match st1.users.find? (fun u => u.email == email) with
      | none =>
        (.error .userNotFound,
         { st1 with
             otps := incrementAttempts st1.otps email otp "email_verification" })
      | some u =>
        if u.emailVerified then
          (.error .alreadyVerified,
           { st1 with
               otps := incrementAttempts st1.otps email otp "email_verification" })
        else
          let ws : WorkspaceRec :=
            { id := st1.nextWsId, name := defaultWorkspaceName u.name,
              description := "Your personal workspace", owner := u.id,
              members := [{ user := u.id, role := "admin", joinedAt := now }] }
          let u2 := userSave
            { u with emailVerified := true, emailVerifiedAt := some now,
                     status := "active", workspaces := u.workspaces ++ [ws.id] }
          (.ok (),
           { st1 with
               users := updateFirst (fun x => x.email == email) (fun _ => u2)
                          st1.users,
               workspaces := st1.workspaces ++ [ws],
               nextWsId := st1.nextWsId + 1 })

/-! ### C2 — five wrong guesses do NOT lock the active code -/

/-- The unverified registered user of the C2 scenario. -/
def c2User : UserRec :=
  { id := "u1", name := "Alice", email := "alice@example.com",
    password := bcryptHash (.plain "secret123"), status := "pending",
    emailVerified := false, emailVerifiedAt := none, workspaces := [],
    passwordModified := false }

/-- The active OTP of the C2 scenario: code "123456", no attempts yet. -/
def c2OTP : OTPRec :=
  { email := "alice@example.com", otp := "123456",
    purpose := "email_verification", attempts := 0, isUsed := false,
    expiresAt := 600000 }

def c2State : AuthState :=
  { users := [c2User], otps := [c2OTP], workspaces := [], nextWsId := 0 }

/-- One failed verify-email call presenting the wrong code "000000"
(followed, inside the route, by the catch-block increment). -/
def c2WrongCall (st : AuthState) : Except VerifyEmailError Unit × AuthState :=
  verifyEmailRoute st "alice@example.com" "000000" 1000

/-- C2 is false on the code: each of the 5 failed verify-email calls for
the active code (wrong guess "000000") leaves the state unchanged — the
catch-block increment is keyed by the presented code, which matches no
record — so the 6th call presenting the correct code SUCCEEDS instead of
failing with TooManyAttempts. -/
theorem C2_counterexample :
    (c2WrongCall c2State).1 = .error (.otpError .invalidOTP)
    ∧ (c2WrongCall c2State).2 = c2State
    ∧ (verifyEmailRoute
        (c2WrongCall (c2WrongCall (c2WrongCall (c2WrongCall
          (c2WrongCall c2State).2).2).2).2).2
        "alice@example.com" "123456" 2000).1 = .ok () :=
  ⟨rfl, rfl, rfl⟩

/-- C2 (amended): a failed verify-email call presenting a code that matches
no stored (email, code, purpose) triple fails with Invalid OTP and leaves
the state — in particular the active code's attempt counter — completely
unchanged, so wrong-code failures never drive the counter to the cap and a
later call with the correct code still succeeds; a verify call fails with
TooManyAttempts only when the active record's counter has already reached
5 (which the route can only cause via failures presenting that exact
code), and then even the correct code is rejected. -/
theorem C2_amended (st : AuthState) (e w c : String) (now now2 : Nat)
    (he : (e == "") = false) (hw0 : (w == "") = false)
    (hc0 : (c == "") = false)
    (hnom : ∀ r ∈ st.otps, otpTriple e w "email_verification" r = false)
    (huniq : st.otps.countP (otpTriple e c "email_verification") ≤ 1) :
    verifyEmailRoute st e w now = (.error (.otpError .invalidOTP), st)
    ∧ (∀ r ∈ st.otps, otpTriple e c "email_verification" r = true →
        r.isUsed = false → now2 < r.expiresAt → 5 ≤ r.attempts →
        (verifyEmailRoute st e c now2).1 =
          .error (.otpError .tooManyAttempts)) := by
  constructor
  · have h1 : st.otps.find? (otpActiveTriple e w "email_verification" now)
        = none := by
      rw [List.find?_eq_none]
      intro x hx hact
      have htr := otpActiveTriple_imp_triple _ _ _ _ _ hact
      rw [hnom x hx] at htr
      cases htr
    have h2 : st.otps.find? (otpTriple e w "email_verification") = none := by
      rw [List.find?_eq_none]
      intro x hx hact
      rw [hnom x hx] at hact
      cases hact
    have hv : verifyOTP st.otps e w "email_verification" now =
        .error .invalidOTP := by
      simp [verifyOTP, h1, h2]
    have hinc : incrementAttempts st.otps e w "email_verification" = st.otps := by
      simp only [incrementAttempts]
      exact updateFirst_of_not_mem _ _ _ hnom
    simp [verifyEmailRoute, he, hw0, hv, hinc]
  · intro r hmem htr hused hexp hatt
    have hact : otpActiveTriple e c "email_verification" now2 r = true := by
      simp [otpActiveTriple, htr, hused, hexp]
    have h1 : st.otps.find? (otpActiveTriple e c "email_verification" now2)
        = some r := by
      rw [find?_sub_of_countP_le_one (otpTriple e c "email_verification")
        (otpActiveTriple e c "email_verification" now2)
        (otpActiveTriple_imp_triple e c "email_verification" now2)
        huniq hmem htr]
      simp [hact]
    have hv : verifyOTP st.otps e c "email_verification" now2 =
        .error .tooManyAttempts := by
      simp [verifyOTP, h1, hatt]
    simp [verifyEmailRoute, he, hc0, hv]

theorem C2_amended_witness :
    verifyEmailRoute c2State "alice@example.com" "000000" 1000 =
      (.error (.otpError .invalidOTP), c2State) ∧
    (verifyEmailRoute
      { c2State with otps := [{ c2OTP with attempts := 5 }] }
      "alice@example.com" "123456" 1000).1 =
      .error (.otpError .tooManyAttempts) := by
  have h1 := C2_amended c2State "alice@example.com" "000000" "123456" 1000 1000
    (by decide) (by decide) (by decide) (by decide) (by decide)
  have h2 := C2_amended
    { c2State with otps := [{ c2OTP with attempts := 5 }] }
    "alice@example.com" "000000" "123456" 1000 1000
    (by decide) (by decide) (by decide) (by decide) (by decide)
  exact ⟨h1.1, h2.2 { c2OTP with attempts := 5 } (by decide) (by decide)
    (by decide) (by decide) (by decide)⟩

/-! ### C10 — verify-email on an already verified user consumes the OTP -/

/-- C10: when a user is already verified and an active, valid OTP for
(their email, email_verification) is presented, the verify-email route
fails with "Email is already verified", yet the OTP has already been marked
used by `verifyOTP` before the user check ran, and the catch block
increments its attempt counter; the user list (and workspaces) are
unchanged, and every later verify-email call with the same code fails with
"OTP has already been used". -/
theorem C10_already_verified_consumes_otp (st : AuthState) (e c : String)
    (now : Nat) (u : UserRec) (r : OTPRec)
    (he : (e == "") = false) (hc : (c == "") = false)
    (humem : u ∈ st.users)
    (huuniq : st.users.countP (fun x => x.email == e) ≤ 1)
    (hue : u.email = e) (huv : u.emailVerified = true)
    (hrmem : r ∈ st.otps)
    (hruniq : st.otps.countP (otpTriple e c "email_verification") ≤ 1)
    (hrtr : otpTriple e c "email_verification" r = true)
    (hrused : r.isUsed = false) (hrexp : now < r.expiresAt)
    (hratt : r.attempts < 5) :
    ∃ st' : AuthState,
      verifyEmailRoute st e c now = (.error .alreadyVerified, st')
      ∧ st'.users = st.users
      ∧ st'.workspaces = st.workspaces
      ∧ { r with isUsed := true, attempts := r.attempts + 1 } ∈ st'.otps
      ∧ ∀ now', (verifyEmailRoute st' e c now').1 =
          .error (.otpError .alreadyUsed) := by
  have hact : otpActiveTriple e c "email_verification" now r = true := by
    simp [otpActiveTriple, hrtr, hrused, hrexp]
  have h1 : st.otps.find? (otpActiveTriple e c "email_verification" now)
      = some r := by
    rw [find?_sub_of_countP_le_one (otpTriple e c "email_verification")
      (otpActiveTriple e c "email_verification" now)
      (otpActiveTriple_imp_triple e c "email_verification" now)
      hruniq hrmem hrtr]
    simp [hact]
  obtain ⟨l1, l2, hl, hnotact, _⟩ := find?_decomp _ h1
  have hcsplit : l1.countP (otpTriple e c "email_verification")
      + (l2.countP (otpTriple e c "email_verification") + 1) ≤ 1 := by
    have h := hruniq
    rw [hl] at h
    simpa [List.countP_append, List.countP_cons, hrtr] using h
  have hnot1 : ∀ x ∈ l1, otpTriple e c "email_verification" x = false := by
    intro x hx
    cases hv : otpTriple e c "email_verification" x with
    | false => rfl
    | true =>
      have : 0 < l1.countP (otpTriple e c "email_verification") :=
        List.countP_pos_iff.mpr ⟨x, hx, hv⟩
      omega
  have hnot2 : ∀ x ∈ l2, otpTriple e c "email_verification" x = false := by
    intro x hx
    cases hv : otpTriple e c "email_verification" x with
    | false => rfl
    | true =>
      have : 0 < l2.countP (otpTriple e c "email_verification") :=
        List.countP_pos_iff.mpr ⟨x, hx, hv⟩
      omega
  have hnot5 : ¬ 5 ≤ r.attempts := by omega
  have hv : verifyOTP st.otps e c "email_verification" now =
      .ok (l1 ++ { r with isUsed := true } :: l2) := by
    have hupd : updateFirst (otpActiveTriple e c "email_verification" now)
        (fun d => { d with isUsed := true }) st.otps
        = l1 ++ { r with isUsed := true } :: l2 := by
      rw [hl]
      exact updateFirst_append_of_not_mem _ _ l1 r l2 hnotact hact
    simp [verifyOTP, h1, hnot5, hupd]
  have hfu : st.users.find? (fun x => x.email == e) = some u :=
    find?_eq_of_countP_le_one _ huuniq humem (by simp [hue])
  have htr' : otpTriple e c "email_verification" { r with isUsed := true }
      = true := hrtr
  have hinc : incrementAttempts (l1 ++ { r with isUsed := true } :: l2)
      e c "email_verification"
      = l1 ++ { r with isUsed := true, attempts := r.attempts + 1 } :: l2 := by
    simp only [incrementAttempts]
    exact updateFirst_append_of_not_mem _ _ l1 _ l2 hnot1 htr'
  set r2 : OTPRec := { r with isUsed := true, attempts := r.attempts + 1 }
    with hr2
  refine ⟨{ st with otps := l1 ++ r2 :: l2 }, ?_, rfl, rfl, by simp, ?_⟩
  · simp only [verifyEmailRoute, he, hc, Bool.or_self, Bool.false_or,
      if_false, hv, hfu, huv, if_true]
    simp [hinc, hr2]
  · intro now'
    have htr2 : otpTriple e c "email_verification" r2 = true := hrtr
    have hmem2 : r2 ∈ l1 ++ r2 :: l2 := by simp
    have hcnt2 : (l1 ++ r2 :: l2).countP (otpTriple e c "email_verification")
        ≤ 1 := by
      simp [List.countP_append, List.countP_cons, htr2]
      have hz1 : l1.countP (otpTriple e c "email_verification") = 0 :=
        List.countP_eq_zero.mpr (by intro a ha; simp [hnot1 a ha])
      have hz2 : l2.countP (otpTriple e c "email_verification") = 0 :=
        List.countP_eq_zero.mpr (by intro a ha; simp [hnot2 a ha])
      omega
    have h1' : (l1 ++ r2 :: l2).find?
        (otpActiveTriple e c "email_verification" now') = none := by
      rw [find?_sub_of_countP_le_one (otpTriple e c "email_verification")
        (otpActiveTriple e c "email_verification" now')
        (otpActiveTriple_imp_triple e c "email_verification" now')
        hcnt2 hmem2 htr2]
      simp [otpActiveTriple, hr2]
    have h2' : (l1 ++ r2 :: l2).find? (otpTriple e c "email_verification")
        = some r2 :=
      find?_eq_of_countP_le_one _ hcnt2 hmem2 htr2
    have hv' : verifyOTP (l1 ++ r2 :: l2) e c "email_verification" now' =
        .error .alreadyUsed := by
      simp [verifyOTP, h1', h2', hr2]
    simp [verifyEmailRoute, he, hc, hv']

theorem C10_witness :
    ∃ st' : AuthState,
      verifyEmailRoute
        { users := [{ c2User with emailVerified := true }], otps := [c2OTP],
          workspaces := [], nextWsId := 0 }
        "alice@example.com" "123456" 1000 = (.error .alreadyVerified, st')
      ∧ st'.users = [{ c2User with emailVerified := true }]
      ∧ st'.workspaces = []
      ∧ { c2OTP with isUsed := true, attempts := 1 } ∈ st'.otps
      ∧ ∀ now', (verifyEmailRoute st' "alice@example.com" "123456" now').1 =
          .error (.otpError .alreadyUsed) := by
  have h := C10_already_verified_consumes_otp
    { users := [{ c2User with emailVerified := true }], otps := [c2OTP],
      workspaces := [], nextWsId := 0 }
    "alice@example.com" "123456" 1000
    { c2User with emailVerified := true } c2OTP
    (by decide) (by decide) (by decide) (by decide) (by decide) (by decide)
    (by decide) (by decide) (by decide) (by decide) (by decide) (by decide)
  exact h

/-! ### Registration — src/unnamed/part_007 registerUser — and the
invitation controller — backend/controllers/invitationController.js -/

/-- How the email collaborator behaves on a given call: it can deliver,
return `{success: false}`, or throw. -/
inductive EmailOutcome
  | delivered
  | reportedFailure
  | threw
deriving DecidableEq

inductive RegisterError
  | missingFields
  | passwordTooShort
  | userExists
  | sendFailed
deriving DecidableEq

/-- The creation half of `registerUser` (the body after the existing-user
check): create the unverified user (the pre-save hook hashes the
password), issue the OTP with `createOTP`, then attempt delivery. When
`sendOTPEmail` merely REPORTS failure (`{success: false}`) the handler
logs the error and still responds 201 success, deleting nothing; when it
THROWS, the catch block deletes the just-created user — and only the
user — before responding 500; the OTP record persists in both cases. -/
def registerUserBody (st : AuthState) (name email password newId code : String)
    (outcome : EmailOutcome) (now expiryMinutes : Nat) :
    Except RegisterError Unit × AuthState :=
  let u := userSave { id := newId, name := name, email := email,
                      password := .plain password, status := "pending",
                      emailVerified := false, emailVerifiedAt := none,
                      workspaces := [], passwordModified := true }
  let stU : AuthState := { st with users := st.users ++ [u] }
  let otps1 :=
    (createOTP stU.otps email "email_verification" code now expiryMinutes).2
  match outcome with
  | .delivered => (.ok (), { stU with otps := otps1 })
  | .reportedFailure => (.ok (), { stU with otps := otps1 })
  | .threw =>
    (.error .sendFailed,
     { stU with otps := otps1,
                users := deleteFirst (fun x => x.id == newId) stU.users })

/-- `registerUser` (src/unnamed/part_007 56-125): validate the fields,
reject a verified existing user, delete an unverified existing user and
re-register, then run the creation half. The generated user id and OTP
code, the configured expiry and the delivery outcome are parameters. -/
def registerUser (st : AuthState) (name email password newId code : String)
    (outcome : EmailOutcome) (now expiryMinutes : Nat) :
    Except RegisterError Unit × AuthState :=
  if name == "" || email == "" || password == "" then
    (.error .missingFields, st)
  else if password.length < 6 then (.error .passwordTooShort, st)
  else
    match st.users.find? (fun u => u.email == email) with
    | some u =>
      if u.emailVerified then (.error .userExists, st)
      else
        registerUserBody
          { st with users := deleteFirst (fun x => x.id == u.id) st.users }
          name email password newId code outcome now expiryMinutes
    | none =>
      registerUserBody st name email password newId code outcome now
        expiryMinutes

/-- The backend state touched by the invitation controller. -/
structure InvCtrlState where
  users : List UserRec
  workspaces : List WorkspaceRec
  invitations : List InvRec
deriving DecidableEq

inductive SendInvError
  | missingFields
  | workspaceNotFound
  | notAMember
  | noPermission
  | selfInvite
  | alreadyMember
  | conflict
  | deliveryFailed
deriving DecidableEq

/-- `sendInvitation` (controllers/invitationController.js 10-108):
permission and duplicate-member checks, `createInvitation`, then
`sendTeamInvitationEmail`; when the email service reports failure the
controller deletes the just-created invitation (`findByIdAndDelete`,
rendered here as deletion by the schema-unique token) and responds 500. -/
def sendInvitation (st : InvCtrlState) (requester : UserRec) (email : String)
    (workspaceId : Nat) (role token : String) (delivered : Bool)
    (now expiryHours : Nat) : Except SendInvError Unit × InvCtrlState :=
  if email == "" then (.error .missingFields, st)
  else
    match st.workspaces.find? (fun w => w.id == workspaceId) with
    | none => (.error .workspaceNotFound, st)
    | some ws =>
      match ws.members.find? (fun m => m.user == requester.id) with
      | none => (.error .notAMember, st)
      | some mem =>
        if !(mem.role == "admin" || mem.role == "manager") then
          (.error .noPermission, st)
        else if email == requester.email then (.error .selfInvite, st)
        else
          let already :=
            match st.users.find? (fun u => u.email == email) with
            | some ex => ws.members.any fun m => m.user == ex.id
            | none => false
          if already then (.error .alreadyMember, st)
          else
            match createInvitation st.invitations email workspaceId
                requester.id role token now expiryHours with
            | .error .conflict => (.error .conflict, st)
            | .ok (inv, invs1) =>
              if delivered then (.ok (), { st with invitations := invs1 })
              else
                (.error .deliveryFailed,
                 { st with invitations :=
                     deleteFirst (fun r => r.token == inv.token) invs1 })

/-- A successful `createInvitation` appends exactly the new record, which
carries the supplied token. -/
theorem createInvitation_ok_shape (invs : List InvRec) (e : String)
    (wid : Nat) (inviter role token : String) (now eh : Nat) (inv : InvRec)
    (invs1 : List InvRec)
    (h : createInvitation invs e wid inviter role token now eh
          = .ok (inv, invs1)) :
    invs1 = invs ++ [inv] ∧ inv.token = token := by
  unfold createInvitation at h
  cases hf : invs.find? (pendingForPair e wid now) with
  | some r => rw [hf] at h; cases h
  | none =>
    rw [hf] at h
    simp only [Except.ok.injEq, Prod.mk.injEq] at h
    obtain ⟨h1, h2⟩ := h
    subst h1
    subst h2
    exact ⟨rfl, rfl⟩

/-! ### C3 — rollback on failed email delivery -/

/-- C3 is false on the code for the registration half: when the OTP email
delivery fails (is reported unsuccessful), `registerUser` deletes nothing —
it still responds success, leaving one active OTP for the email AND the
unverified (pending) registration record behind. -/
theorem C3_counterexample :
    (registerUser { users := [], otps := [], workspaces := [], nextWsId := 0 }
        "Alice" "alice@example.com" "secret123" "u1" "123456"
        .reportedFailure 1000 10).1 = .ok ()
    ∧ (registerUser { users := [], otps := [], workspaces := [], nextWsId := 0 }
        "Alice" "alice@example.com" "secret123" "u1" "123456"
        .reportedFailure 1000 10).2.otps.countP
        (otpActivePair "alice@example.com" "email_verification" 1000) = 1
    ∧ (registerUser { users := [], otps := [], workspaces := [], nextWsId := 0 }
        "Alice" "alice@example.com" "secret123" "u1" "123456"
        .reportedFailure 1000 10).2.users.countP
        (fun u => u.email == "alice@example.com" && !u.emailVerified) = 1 :=
  ⟨rfl, rfl, rfl⟩

/-- C3 (amended): for invitations the claim holds — a failed
`sendTeamInvitationEmail` deletes the created invitation before the error
propagates, so the invitation list is exactly as before the call. For
registration it does not: a delivery reported as unsuccessful leaves both
the unverified registration record and the active OTP in place and the
route still responds success; a THROWN delivery error deletes the created
user but still leaves the active OTP behind. -/
theorem C3_amended :
    (∀ (st : InvCtrlState) (requester : UserRec) (e : String) (wid : Nat)
        (role token : String) (now eh : Nat) (ws : WorkspaceRec)
        (mem : MemberRec) (inv : InvRec) (invs1 : List InvRec),
      (e == "") = false →
      st.workspaces.find? (fun w => w.id == wid) = some ws →
      ws.members.find? (fun m => m.user == requester.id) = some mem →
      (mem.role == "admin" || mem.role == "manager") = true →
      (e == requester.email) = false →
      st.users.find? (fun u => u.email == e) = none →
      createInvitation st.invitations e wid requester.id role token now eh
        = .ok (inv, invs1) →
      (∀ r ∈ st.invitations, (r.token == token) = false) →
      sendInvitation st requester e wid role token false now eh
        = (.error .deliveryFailed, st))
    ∧ (∀ (st : AuthState) (name e pw newId code : String) (now m : Nat),
      (name == "") = false → (e == "") = false → (pw == "") = false →
      ¬ pw.length < 6 → 0 < m →
      st.users.find? (fun u => u.email == e) = none →
      (registerUser st name e pw newId code .reportedFailure now m).1 = .ok ()
      ∧ (∃ u : UserRec,
          (registerUser st name e pw newId code .reportedFailure now m).2.users
            = st.users ++ [u] ∧ u.email = e ∧ u.emailVerified = false)
      ∧ (registerUser st name e pw newId code .reportedFailure now m).2.otps.countP
          (otpActivePair e "email_verification" now) = 1)
    ∧ (∀ (st : AuthState) (name e pw newId code : String) (now m : Nat),
      (name == "") = false → (e == "") = false → (pw == "") = false →
      ¬ pw.length < 6 → 0 < m →
      st.users.find? (fun u => u.email == e) = none →
      (∀ x ∈ st.users, (x.id == newId) = false) →
      (registerUser st name e pw newId code .threw now m).1 = .error .sendFailed
      ∧ (registerUser st name e pw newId code .threw now m).2.users = st.users
      ∧ (registerUser st name e pw newId code .threw now m).2.otps.countP
          (otpActivePair e "email_verification" now) = 1) := by
  refine ⟨?_, ?_, ?_⟩
  · intro st requester e wid role token now eh ws mem inv invs1
      he hws hmem hrole hself husers hcreate hfresh
    obtain ⟨hshape, htok⟩ := createInvitation_ok_shape _ _ _ _ _ _ _ _ _ _
      hcreate
    have hdel : deleteFirst (fun r : InvRec => r.token == inv.token) invs1
        = st.invitations := by
      rw [hshape]
      have h := deleteFirst_append_of_not_mem
        (fun r : InvRec => r.token == inv.token) st.invitations inv []
        (fun x hx => by simp only [htok]; exact hfresh x hx) (by simp)
      simpa using h
    simp [sendInvitation, he, hws, hmem, hrole, hself, husers, hcreate, hdel]
  · intro st name e pw newId code now m hn he hp hlen hm husers
    have hnv : (name == "" || e == "" || pw == "") = false := by
      simp [hn, he, hp]
    set u0 : UserRec := userSave
      { id := newId, name := name, email := e, password := .plain pw,
        status := "pending", emailVerified := false, emailVerifiedAt := none,
        workspaces := [], passwordModified := true } with hu0
    refine ⟨?_, ⟨u0, ?_, ?_, ?_⟩, ?_⟩
    · simp [registerUser, hnv, hlen, husers, registerUserBody]
    · simp [registerUser, hnv, hlen, husers, registerUserBody, hu0]
    · simp [hu0, userSave]
    · simp [hu0, userSave]
    · simp only [registerUser, hnv, Bool.false_eq_true, if_false, hlen,
        husers, registerUserBody]
      exact createOTP_active_one _ _ _ _ _ _ hm
  · intro st name e pw newId code now m hn he hp hlen hm husers hid
    have hnv : (name == "" || e == "" || pw == "") = false := by
      simp [hn, he, hp]
    set u0 : UserRec := userSave
      { id := newId, name := name, email := e, password := .plain pw,
        status := "pending", emailVerified := false, emailVerifiedAt := none,
        workspaces := [], passwordModified := true } with hu0
    have hdel : deleteFirst (fun x : UserRec => x.id == newId)
        (st.users ++ [u0]) = st.users := by
      have h := deleteFirst_append_of_not_mem
        (fun x : UserRec => x.id == newId) st.users u0 []
        hid (by simp [hu0, userSave])
      simpa using h
    refine ⟨?_, ?_, ?_⟩
    · simp [registerUser, hnv, hlen, husers, registerUserBody]
    · simp only [registerUser, hnv, Bool.false_eq_true, if_false, hlen,
        husers, registerUserBody]
      simpa [hu0] using hdel
    · simp only [registerUser, hnv, Bool.false_eq_true, if_false, hlen,
        husers, registerUserBody]
      exact createOTP_active_one _ _ _ _ _ _ hm

/-- The workspace, inviter and expected fresh invitation of the C3
delivery-failure scenario. -/
def c3Ws : WorkspaceRec :=
  { id := 1, name := "W", description := "", owner := "bob",
    members := [{ user := "bob", role := "admin", joinedAt := 0 }] }

def c3Bob : UserRec :=
  { id := "bob", name := "Bob", email := "bob@x.com",
    password := bcryptHash (.plain "pw1234"), status := "active",
    emailVerified := true, emailVerifiedAt := some 0, workspaces := [1],
    passwordModified := false }

def c3InvSt : InvCtrlState :=
  { users := [], workspaces := [c3Ws], invitations := [] }

def c3NewInv : InvRec :=
  { email := "carol@x.com", workspaceId := 1, invitedBy := "bob",
    role := "member", token := "tok1", status := .pending,
    acceptedBy := none, acceptedAt := none,
    expiresAt := 1000 + 72 * 60 * 60 * 1000 }

theorem C3_witness :
    sendInvitation c3InvSt c3Bob "carol@x.com" 1 "member" "tok1" false 1000 72
      = (.error .deliveryFailed, c3InvSt)
    ∧ (registerUser { users := [], otps := [], workspaces := [], nextWsId := 0 }
        "Alice" "alice@example.com" "secret123" "u1" "123456"
        .threw 1000 10).2.users = [] := by
  constructor
  · exact C3_amended.1 c3InvSt c3Bob "carol@x.com" 1 "member" "tok1" 1000 72
      c3Ws { user := "bob", role := "admin", joinedAt := 0 } c3NewInv
      [c3NewInv] rfl rfl rfl rfl rfl rfl rfl (by decide)
  · exact (C3_amended.2.2
      { users := [], otps := [], workspaces := [], nextWsId := 0 }
      "Alice" "alice@example.com" "secret123" "u1" "123456" 1000 10
      rfl rfl rfl (by decide) (by decide) rfl (by decide)).2.1

/-! ### Removing a workspace member — backend/routes/workspaces.js -/

/-- Errors of the remove-member route: `accessDenied` = "Access denied"
(403), `cannotRemoveOwner` = "Cannot remove workspace owner" (400). -/
inductive RemoveMemberError
  | workspaceNotFound
  | accessDenied
  | cannotRemoveOwner
deriving DecidableEq

structure WsState where
  workspaces : List WorkspaceRec
  users : List UserRec
deriving DecidableEq

/-- `DELETE /:id/members/:userId` (backend/routes/workspaces.js 269-313):
the permission gate (requester is the owner, an admin member, or removing
themselves) runs FIRST; only then the owner-removal guard; then the member
filter and the `$pull` of the workspace id from the removed user's
workspace list. -/
def removeMemberRoute (st : WsState) (requesterId : String) (wsId : Nat)
    (targetId : String) : Except RemoveMemberError Unit × WsState :=
  match st.workspaces.find? (fun w => w.id == wsId) with
  | none => (.error .workspaceNotFound, st)
  | some ws =>
    let isOwner := ws.owner == requesterId
    let isAdmin := ws.members.any fun m =>
      m.user == requesterId && m.role == "admin"
    let isRemovingSelf := targetId == requesterId
    if !isOwner && !isAdmin && !isRemovingSelf then (.error .accessDenied, st)
    else if ws.owner == targetId then (.error .cannotRemoveOwner, st)
    else
      let ws1 : WorkspaceRec :=
        { ws with members := ws.members.filter fun m => !(m.user == targetId) }
      (.ok (),
       { workspaces := updateFirst (fun w => w.id == wsId) (fun _ => ws1)
           st.workspaces,
         users := updateFirst (fun u => u.id == targetId)
           (fun u => { u with
             workspaces := u.workspaces.filter fun i => !(i == wsId) })
           st.users })

/-! ### C8 — removing the owner -/

/-- A workspace whose owner is "o", with a plain member "r". -/
def c8Ws : WorkspaceRec :=
  { id := 1, name := "W", description := "", owner := "o",
    members := [{ user := "o", role := "admin", joinedAt := 0 },
                { user := "r", role := "member", joinedAt := 0 }] }

def c8State : WsState := { workspaces := [c8Ws], users := [] }

/-- C8 is false as stated: when the plain member "r" (no admin role, not
the owner, not removing themselves) tries to remove the owner "o", the
route fails with AccessDenied (403) from the permission gate — NOT with
CannotRemoveOwner — so the error is not CannotRemoveOwner "regardless of
the requester's permissions". -/
theorem C8_counterexample :
    removeMemberRoute c8State "r" 1 "o" = (.error .accessDenied, c8State)
    ∧ RemoveMemberError.accessDenied ≠ RemoveMemberError.cannotRemoveOwner :=
  ⟨rfl, by decide⟩

/-- C8 (amended): removing the workspace owner always fails and always
leaves the state (in particular the member list) unchanged — the owner can
never be removed via the route — but the error is CannotRemoveOwner only
when the requester passes the permission gate (is the owner or an admin
member; with the owner as target, removing-oneself coincides with being
the owner); an unauthorized requester gets AccessDenied instead. -/
theorem C8_amended (st : WsState) (requesterId : String) (wsId : Nat)
    (ws : WorkspaceRec)
    (hfind : st.workspaces.find? (fun w => w.id == wsId) = some ws) :
    (∃ err, (removeMemberRoute st requesterId wsId ws.owner).1 = .error err)
    ∧ (removeMemberRoute st requesterId wsId ws.owner).2 = st
    ∧ ((ws.owner == requesterId
        || ws.members.any (fun m => m.user == requesterId
             && m.role == "admin")) = true →
       (removeMemberRoute st requesterId wsId ws.owner).1 =
         .error .cannotRemoveOwner) := by
  cases ho : (ws.owner == requesterId) with
  | true =>
    have hres : removeMemberRoute st requesterId wsId ws.owner =
        (.error .cannotRemoveOwner, st) := by
      simp [removeMemberRoute, hfind, ho]
    exact ⟨⟨.cannotRemoveOwner, by rw [hres]⟩, by rw [hres],
      fun _ => by rw [hres]⟩
  | false =>
    cases ha : ws.members.any (fun m => m.user == requesterId
        && m.role == "admin") with
    | true =>
      have hres : removeMemberRoute st requesterId wsId ws.owner =
          (.error .cannotRemoveOwner, st) := by
        simp [removeMemberRoute, hfind, ho, ha]
      exact ⟨⟨.cannotRemoveOwner, by rw [hres]⟩, by rw [hres],
        fun _ => by rw [hres]⟩
    | false =>
      have hself : (ws.owner == requesterId) = false := ho
      have hres : removeMemberRoute st requesterId wsId ws.owner =
          (.error .accessDenied, st) := by
        simp [removeMemberRoute, hfind, ho, ha]
      refine ⟨⟨.accessDenied, by rw [hres]⟩, by rw [hres], ?_⟩
      intro hgate
      simp [ho, ha] at hgate

theorem C8_witness :
    (∃ err, (removeMemberRoute c8State "o" 1 "o").1 = .error err)
    ∧ (removeMemberRoute c8State "o" 1 "o").2 = c8State
    ∧ (removeMemberRoute c8State "o" 1 "o").1 =
        .error .cannotRemoveOwner := by
  have h := C8_amended c8State "o" 1 c8Ws rfl
  exact ⟨h.1, h.2.1, h.2.2 (by decide)⟩

/-! ### Accepting an invitation — backend/controllers/invitationController.js -/

inductive AcceptInvError
  | invalidOrExpired
  | userNotFound
  | emailMismatch
  | registerFirst
  | notVerified
  | noLongerPending
  | expired
  | workspaceMissing
  | workspaceValidation
deriving DecidableEq

/-- `acceptInvitation` (controllers/invitationController.js 113-195): find
the invitation by token, resolve the accepting user (by the supplied
userId, with an email match check, or else by the invitation email),
require a verified email, call the invitation's `accept` — which persists
status accepted — and only then push a member entry carrying the
INVITATION's role onto the workspace and save it; the save runs
workspaceSchema validation. Any error thrown inside the try block becomes
a 400; nothing rolls the accepted invitation back. -/
def acceptInvitation (st : InvCtrlState) (token : String)
    (userId : Option String) (now : Nat) :
    Except AcceptInvError Unit × InvCtrlState :=
  match findByToken st.invitations token now with
  | .error .invalidOrExpired => (.error .invalidOrExpired, st)
  | .ok inv =>
    let userRes : Except AcceptInvError UserRec :=
      match userId with
      | some uid =>
        match st.users.find? (fun u => u.id == uid) with
        | none => .error .userNotFound
        | some u =>
          if u.email == inv.email then .ok u else .error .emailMismatch
      | none =>
        match st.users.find? (fun u => u.email == inv.email) with
        | none => .error .registerFirst
        | some u => .ok u
    match userRes with
    | .error e => (.error e, st)
    | .ok user =>
      if !user.emailVerified then (.error .notVerified, st)
      else
        match acceptDoc inv user.id now with
        | (.error .noLongerPending, _) => (.error .noLongerPending, st)
        | (.error .expired, inv2) =>
          (.error .expired,
           { st with invitations := saveInv st.invitations token inv2 })
        | (.ok _, inv2) =>
          let st1 : InvCtrlState :=
            { st with invitations := saveInv st.invitations token inv2 }
          match st1.workspaces.find? (fun w => w.id == inv.workspaceId) with
          | none => (.error .workspaceMissing, st1)
          | some ws =>
            let ws1 : WorkspaceRec :=
              { ws with members := ws.members ++
                  [{ user := user.id, role := inv.role, joinedAt := now }] }
            if workspaceValid ws1 then
              let users1 :=
                if user.workspaces.contains ws.id then st1.users
                else updateFirst (fun u => u.id == user.id)
                  (fun _ => userSave { user with
                    workspaces := user.workspaces ++ [ws.id] }) st1.users
              (.ok (),
               { st1 with
                   workspaces := updateFirst (fun w => w.id == ws.id)
                     (fun _ => ws1) st1.workspaces,
                   users := users1 })
            else (.error .workspaceValidation, st1)

/-! ### C9 — accepting with role manager strands an accepted invitation -/

/-- C9: the TeamInvitation schema permits role "manager", but the Workspace
member-role enum does not; accepting such an invitation first persists the
invitation as accepted (via `accept`), then fails the workspace save's
schema validation when pushing the member with role "manager", and does
not roll the invitation back: the call errors while the invitation stays
accepted and the workspace (and users) are unchanged. -/
theorem C9_manager_role (st : InvCtrlState) (inv : InvRec) (user : UserRec)
    (ws : WorkspaceRec) (now : Nat)
    (hinvmem : inv ∈ st.invitations)
    (htuniq : st.invitations.countP (fun r => r.token == inv.token) ≤ 1)
    (hp : inv.status = InvStatus.pending) (hexp : now < inv.expiresAt)
    (hrole : inv.role = "manager")
    (humem : user ∈ st.users)
    (huuniq : st.users.countP (fun x => x.id == user.id) ≤ 1)
    (hemail : user.email = inv.email) (hver : user.emailVerified = true)
    (hws : st.workspaces.find? (fun w => w.id == inv.workspaceId) = some ws) :
    (acceptInvitation st inv.token (some user.id) now).1 =
      .error .workspaceValidation
    ∧ { inv with
        status := InvStatus.accepted,
        acceptedBy := some user.id,
        acceptedAt := some now } ∈
        (acceptInvitation st inv.token (some user.id) now).2.invitations
    ∧ (acceptInvitation st inv.token (some user.id) now).2.workspaces =
        st.workspaces
    ∧ (acceptInvitation st inv.token (some user.id) now).2.users = st.users := by
  have hvalid : validByToken inv.token now inv = true := by
    simp [validByToken, hp, hexp]
  have hfind : st.invitations.find? (validByToken inv.token now) = some inv := by
    rw [find?_sub_of_countP_le_one (fun r => r.token == inv.token)
      (validByToken inv.token now)
      (by intro x hx
          simp [validByToken] at hx
          obtain ⟨⟨h1, h2⟩, h3⟩ := hx
          simp [h1])
      htuniq hinvmem (by simp)]
    simp [hvalid]
  have hfbt : findByToken st.invitations inv.token now = .ok inv := by
    simp [findByToken, hfind]
  have hfu : st.users.find? (fun u => u.id == user.id) = some user :=
    find?_eq_of_countP_le_one _ huuniq humem (by simp)
  have hacc : acceptDoc inv user.id now =
      (.ok { inv with
             status := InvStatus.accepted,
             acceptedBy := some user.id,
             acceptedAt := some now },
       { inv with
         status := InvStatus.accepted,
         acceptedBy := some user.id,
         acceptedAt := some now }) := by
    have hne : ¬ inv.expiresAt < now := by omega
    simp [acceptDoc, hp, hne]
  set inv2 : InvRec :=
    { inv with
      status := InvStatus.accepted,
      acceptedBy := some user.id,
      acceptedAt := some now } with hinv2
  have hinvalid : workspaceValid
      { ws with members := ws.members ++
          [{ user := user.id, role := inv.role, joinedAt := now }] }
      = false := by
    simp [workspaceValid, List.all_append, hrole]
    intro h2
    decide
  have hmem2 : inv2 ∈ saveInv st.invitations inv.token inv2 := by
    obtain ⟨l1, l2, hl, hnot, htk⟩ := find?_decomp _
      (find?_eq_of_countP_le_one (fun r : InvRec => r.token == inv.token)
        htuniq hinvmem (by simp))
    have : saveInv st.invitations inv.token inv2 = l1 ++ inv2 :: l2 := by
      rw [saveInv, hl]
      exact updateFirst_append_of_not_mem _ _ l1 inv l2 hnot htk
    rw [this]
    simp
  have hue : (user.email == inv.email) = true := by simp [hemail]
  have hres : acceptInvitation st inv.token (some user.id) now =
      (.error .workspaceValidation,
       { st with invitations := saveInv st.invitations inv.token inv2 }) := by
    simp only [acceptInvitation, hfbt, hfu, hue, if_true, hver,
      Bool.not_true, Bool.false_eq_true, if_false, hacc, hws, hinvalid]
  rw [hres]
  exact ⟨rfl, hmem2, rfl, rfl⟩

/-- The concrete C9 scenario: Bob invited carol@x.com as "manager", Carol
is registered and verified. -/
def c9Inv : InvRec :=
  { email := "carol@x.com", workspaceId := 1, invitedBy := "bob",
    role := "manager", token := "tok1", status := .pending,
    acceptedBy := none, acceptedAt := none, expiresAt := 999999 }

def c9Carol : UserRec :=
  { id := "carol", name := "Carol", email := "carol@x.com",
    password := bcryptHash (.plain "pw1234"), status := "active",
    emailVerified := true, emailVerifiedAt := some 0, workspaces := [],
    passwordModified := false }

def c9State : InvCtrlState :=
  { users := [c9Carol], workspaces := [c3Ws], invitations := [c9Inv] }

theorem C9_witness :
    (acceptInvitation c9State "tok1" (some "carol") 1000).1 =
      .error .workspaceValidation
    ∧ { c9Inv with
        status := InvStatus.accepted,
        acceptedBy := some "carol",
        acceptedAt := some 1000 } ∈
        (acceptInvitation c9State "tok1" (some "carol") 1000).2.invitations
    ∧ (acceptInvitation c9State "tok1" (some "carol") 1000).2.workspaces =
        c9State.workspaces
    ∧ (acceptInvitation c9State "tok1" (some "carol") 1000).2.users =
        c9State.users := by
  have h := C9_manager_role c9State c9Inv c9Carol c3Ws 1000
    (by decide) (by decide) (by decide) (by decide) (by decide) (by decide)
    (by decide) (by decide) (by decide) (by decide)
  exact h

end ClickupAlt
